import Mathlib

/-!
Shallow embedding of the KFX authentication & workspace core:
token issuance and verification (`src/server/src/routes/workspace.ts`,
utils section, lines 121-218 of the concatenated file, i.e. `utils/jwt.ts`),
the refresh-token ledger operations, the auth middleware
(`src/server/src/middleware/auth.ts`), the refresh-token rotation controller
(`src/server/src/controllers/auth.ts`) and the workspace controller
(`src/unnamed/part_002`: onboarding, invitations, member removal,
workspace update).

Time is modelled as a `Nat` instant (milliseconds since epoch, the value of
`Date.now()` / `new Date()` at the moment the operation runs).  Database
tables are modelled as lists of rows; `prisma.findUnique` / `findFirst`
become `List.find?`, `delete` / `deleteMany` become `List.filter`, `create`
becomes a cons, and in-place `update` becomes `List.map`.
-/

/-- The JWT claims object `{ userId, email }` (`JwtPayload` in
`types/index.ts`). -/
structure JwtPayload where
  userId : String
  email : String
deriving DecidableEq, Repr

/-- Model of a signed JWT as produced by `jwt.sign(payload, secret,
{ expiresIn })` from the `jsonwebtoken` library (a third-party dependency,
not part of src/): the token carries the payload, the absolute expiry
instant, and the secret it was signed with.  Signature validity is
modelled as equality of the signing secret. -/
structure SignedToken where
  payload : JwtPayload
  exp : Nat
  secret : String
deriving DecidableEq, Repr

/-- `generateAccessToken` (utils/jwt.ts): `jwt.sign(payload,
config.jwtSecret, { expiresIn: config.jwtExpiresIn })`.  `expMs` is the
configured lifetime, `now` the issuance instant. -/
def generateAccessToken (secret : String) (expMs : Nat) (now : Nat)
    (payload : JwtPayload) : SignedToken :=
  { payload := payload, exp := now + expMs, secret := secret }

/-- `verifyAccessToken` (utils/jwt.ts): `jwt.verify(token,
config.jwtSecret)` returning the payload, `null` on any failure.
`jsonwebtoken` rejects a token whose `exp` is not strictly in the future
or whose signature does not match the secret; all failures collapse to
`none`. -/
def verifyAccessToken (secret : String) (now : Nat) (t : SignedToken) :
    Option JwtPayload :=
  if t.secret = secret ∧ now < t.exp then some t.payload else none

/-- A row of the `RefreshToken` table (fields used by utils/jwt.ts:
`id`, `token` (unique), `userId`, `expiresAt`). -/
structure RefreshTokenRow where
  id : Nat
  token : String
  userId : String
  expiresAt : Nat
deriving DecidableEq, Repr

/-- The refresh-token ledger: the `RefreshToken` table as a list of rows. -/
abbrev Ledger := List RefreshTokenRow

/-- `prisma.refreshToken.findUnique({ where: { token } })`. -/
def findUniqueToken (l : Ledger) (token : String) : Option RefreshTokenRow :=
  l.find? (fun r => r.token = token)

/-- `prisma.refreshToken.delete({ where: { id } })`. -/
def deleteById (l : Ledger) (id : Nat) : Ledger :=
  l.filter (fun r => r.id ≠ id)

/-- `verifyRefreshToken` (utils/jwt.ts lines 181-195): looks the token up;
if absent or expired (`expiresAt < new Date()`) returns `null`, deleting
the row first when it was present; otherwise returns the owning
`userId`.  Returns the result together with the (possibly cleaned-up)
ledger. -/
def verifyRefreshToken (now : Nat) (l : Ledger) (token : String) :
    Option String × Ledger :=
  match findUniqueToken l token with
  | none => (none, l)
  | some r =>
      if r.expiresAt < now then (none, deleteById l r.id)
      else (some r.userId, l)

/-- `revokeRefreshToken` (utils/jwt.ts lines 197-201):
`prisma.refreshToken.deleteMany({ where: { token } })`. -/
def revokeRefreshToken (l : Ledger) (token : String) : Ledger :=
  l.filter (fun r => r.token ≠ token)

/-- `revokeAllUserTokens` (utils/jwt.ts lines 203-207):
`prisma.refreshToken.deleteMany({ where: { userId } })`. -/
def revokeAllUserTokens (l : Ledger) (userId : String) : Ledger :=
  l.filter (fun r => r.userId ≠ userId)

/-- `generateRefreshToken` (utils/jwt.ts lines 150-164): mints a fresh
uuid token (modelled by the `freshId`/`freshToken` parameters) and
inserts a row expiring `refreshMs` from `now`. -/
def generateRefreshToken (now refreshMs : Nat) (l : Ledger)
    (freshId : Nat) (freshToken : String) (userId : String) :
    Ledger × String :=
  (⟨freshId, freshToken, userId, now + refreshMs⟩ :: l, freshToken)

/-- C1: verifying an access token issued with the same secret returns
exactly the `{userId, email}` claims while the current instant is before
the expiry instant, and returns `none` after the expiry instant. -/
theorem accessToken_roundtrip (secret : String) (expMs issuedAt now : Nat)
    (userId email : String) :
    (now < issuedAt + expMs →
      verifyAccessToken secret now
        (generateAccessToken secret expMs issuedAt ⟨userId, email⟩) =
        some ⟨userId, email⟩) ∧
    (issuedAt + expMs < now →
      verifyAccessToken secret now
        (generateAccessToken secret expMs issuedAt ⟨userId, email⟩) =
        none) := by
  constructor
  · intro h
    simp [verifyAccessToken, generateAccessToken, h]
  · intro h
    simp [verifyAccessToken, generateAccessToken]
    omega

/-- Witness for C1: concrete round trip before and after expiry. -/
theorem accessToken_roundtrip_witness :
    verifyAccessToken "s" 100
      (generateAccessToken "s" 900 50 ⟨"u1", "a@x.com"⟩) =
      some ⟨"u1", "a@x.com"⟩ ∧
    verifyAccessToken "s" 2000
      (generateAccessToken "s" 900 50 ⟨"u1", "a@x.com"⟩) = none := by
  refine ⟨?_, ?_⟩
  · exact (accessToken_roundtrip "s" 900 50 100 "u1" "a@x.com").1 (by decide)
  · exact (accessToken_roundtrip "s" 900 50 2000 "u1" "a@x.com").2 (by decide)

/-- C4: `verifyRefreshToken` returns `none` and leaves the ledger
unchanged when the token is absent; when the token resolves to a row
whose expiry is in the past it deletes that row (the row is gone from
the returned ledger) and returns `none`; when the row is unexpired it
returns the owning user id with the ledger unchanged. -/
theorem verifyRefreshToken_cases (now : Nat) (l : Ledger) (token : String) :
    (findUniqueToken l token = none →
      verifyRefreshToken now l token = (none, l)) ∧
    (∀ r, findUniqueToken l token = some r →
      (r.expiresAt < now →
        verifyRefreshToken now l token = (none, deleteById l r.id) ∧
        r ∉ deleteById l r.id) ∧
      (¬ r.expiresAt < now →
        verifyRefreshToken now l token = (some r.userId, l))) := by
  refine ⟨?_, ?_⟩
  · intro h
    simp [verifyRefreshToken, h]
  · intro r hr
    refine ⟨?_, ?_⟩
    · intro hexp
      refine ⟨by simp [verifyRefreshToken, hr, hexp], ?_⟩
      simp [deleteById, List.mem_filter]
    · intro hexp
      simp [verifyRefreshToken, hr, hexp]

/-- Witness for C4: all three cases evaluated on concrete ledgers. -/
theorem verifyRefreshToken_cases_witness :
    verifyRefreshToken 10 [] "t" = (none, []) ∧
    verifyRefreshToken 10 [⟨1, "t", "u", 5⟩] "t" = (none, []) ∧
    verifyRefreshToken 10 [⟨1, "t", "u", 50⟩] "t" =
      (some "u", [⟨1, "t", "u", 50⟩]) := by
  refine ⟨?_, ?_, ?_⟩
  · exact (verifyRefreshToken_cases 10 [] "t").1 (by decide)
  · exact (((verifyRefreshToken_cases 10 [⟨1, "t", "u", 5⟩] "t").2
      ⟨1, "t", "u", 5⟩ (by decide)).1 (by decide)).1
  · exact ((verifyRefreshToken_cases 10 [⟨1, "t", "u", 50⟩] "t").2
      ⟨1, "t", "u", 50⟩ (by decide)).2 (by decide)

/-- A row of the `User` table, restricted to the fields the auth flows
select (`id`, `email`, `name`). -/
structure UserRow where
  id : String
  email : String
  name : String
deriving DecidableEq, Repr

/-- `prisma.user.findUnique({ where: { id } })`. -/
def findUserById (users : List UserRow) (id : String) : Option UserRow :=
  users.find? (fun u => u.id = id)

/-- Outcome of the `refreshToken` controller
(`controllers/auth.ts` lines 125-177). -/
inductive RefreshOutcome where
  | tokenRequired
  | invalidToken
  | userNotFound
  | ok (user : UserRow) (accessToken : SignedToken) (newRefreshToken : String)
deriving DecidableEq, Repr

/-- `refreshToken` controller (`controllers/auth.ts` lines 125-177):
reads the refresh token from cookie or body (`tok`), validates it via
`verifyRefreshToken`, resolves the user, revokes the old token and
issues a new pair (`generateTokenPair`).  `freshId`/`freshToken` model
the uuid minted by `generateRefreshToken`.  Returns the outcome and the
resulting ledger. -/
def refreshTokenOp (secret : String) (jwtMs refreshMs now : Nat)
    (users : List UserRow) (l : Ledger) (tok : Option String)
    (freshId : Nat) (freshToken : String) : RefreshOutcome × Ledger :=
  match tok with
  | none => (.tokenRequired, l)
  | some token =>
      match verifyRefreshToken now l token with
      | (none, l1) => (.invalidToken, l1)
      | (some userId, l1) =>
          match findUserById users userId with
          | none => (.userNotFound, l1)
          | some user =>
              let l2 := revokeRefreshToken l1 token
              let (l3, newTok) :=
                generateRefreshToken now refreshMs l2 freshId freshToken user.id
              (.ok user
                (generateAccessToken secret jwtMs now ⟨user.id, user.email⟩)
                newTok, l3)

/-- C2: once a rotation (`refreshToken` controller) has successfully
consumed a refresh token — i.e. the outcome is `ok` — validating that
same old token against the resulting ledger returns `none` at every
later instant, provided the freshly minted token string differs from
the old one (uuid freshness). -/
theorem rotation_invalidates_old_token (secret : String)
    (jwtMs refreshMs now now2 : Nat) (users : List UserRow) (l : Ledger)
    (t freshToken : String) (freshId : Nat)
    (user : UserRow) (atk : SignedToken) (ntk : String)
    (hfresh : freshToken ≠ t)
    (hok : (refreshTokenOp secret jwtMs refreshMs now users l (some t)
      freshId freshToken).1 = .ok user atk ntk) :
    (verifyRefreshToken now2
      (refreshTokenOp secret jwtMs refreshMs now users l (some t)
        freshId freshToken).2 t).1 = none := by
  unfold refreshTokenOp at *
  rcases hv : verifyRefreshToken now l t with ⟨res, l1⟩
  rcases res with _ | userId
  · simp [hv] at hok
  · rcases hu : findUserById users userId with _ | user'
    · simp [hv, hu] at hok
    · simp only [hv, hu, generateRefreshToken]
      have hfind : findUniqueToken
          (⟨freshId, freshToken, user'.id, now + refreshMs⟩ ::
            revokeRefreshToken l1 t) t = none := by
        simp only [findUniqueToken, List.find?]
        have : (decide (freshToken = t)) = false := by
          simp [hfresh]
        rw [this]
        rw [List.find?_eq_none]
        intro x hx
        simp only [revokeRefreshToken, List.mem_filter] at hx
        simpa using hx.2
      simp [verifyRefreshToken, hfind]

/-- Witness for C2: a concrete rotation, after which the old token no
longer validates. -/
theorem rotation_invalidates_old_token_witness :
    (refreshTokenOp "s" 900 604800 10 [⟨"u1", "a@x.com", "A"⟩]
      [⟨1, "t1", "u1", 500⟩] (some "t1") 2 "t2").1 =
      .ok ⟨"u1", "a@x.com", "A"⟩
        (generateAccessToken "s" 900 10 ⟨"u1", "a@x.com"⟩) "t2" ∧
    (verifyRefreshToken 20
      (refreshTokenOp "s" 900 604800 10 [⟨"u1", "a@x.com", "A"⟩]
        [⟨1, "t1", "u1", 500⟩] (some "t1") 2 "t2").2 "t1").1 = none := by
  refine ⟨by decide, ?_⟩
  exact rotation_invalidates_old_token "s" 900 604800 10 20
    [⟨"u1", "a@x.com", "A"⟩] [⟨1, "t1", "u1", 500⟩] "t1" "t2" 2
    ⟨"u1", "a@x.com", "A"⟩ (generateAccessToken "s" 900 10 ⟨"u1", "a@x.com"⟩)
    "t2" (by decide) (by decide)

/-- Helper: in a ledger whose token strings are pairwise distinct
(the `@unique` constraint on `RefreshToken.token`), looking a token up
after a `filter` finds the very row the unfiltered lookup found — when
that row survives the filter — and nothing otherwise. -/
theorem findUniqueToken_filter (l : Ledger) (t : String)
    (r : RefreshTokenRow) (p : RefreshTokenRow → Bool)
    (hpd : l.Pairwise (fun a b => a.token ≠ b.token))
    (hfind : findUniqueToken l t = some r) :
    findUniqueToken (l.filter p) t = if p r then some r else none := by
  induction l with
  | nil => simp [findUniqueToken] at hfind
  | cons a l ih =>
      rcases List.pairwise_cons.mp hpd with ⟨ha, htail⟩
      by_cases hat : a.token = t
      · have hra : r = a := by
          simp [findUniqueToken, List.find?_cons, hat] at hfind
          exact hfind.symm
        subst hra
        have htailnone : ∀ q : RefreshTokenRow → Bool,
            findUniqueToken (l.filter q) t = none := by
          intro q
          rw [findUniqueToken, List.find?_eq_none]
          intro x hx
          have hxl : x ∈ l := (List.mem_filter.mp hx).1
          have := ha x hxl
          simp only [hat] at this
          simp only [decide_eq_true_eq]
          exact fun hxe => this hxe.symm
        by_cases hp : p r
        · simp only [List.filter_cons, hp]
          simp [findUniqueToken, List.find?_cons, hat, hp,
            htailnone, if_pos]
        · simp only [List.filter_cons, hp]
          simp only [if_neg, hp, Bool.false_eq_true, not_false_iff]
          simp [htailnone p, hp]
      · have hfind' : findUniqueToken l t = some r := by
          simpa [findUniqueToken, List.find?_cons, hat] using hfind
        have hrec := ih htail hfind'
        by_cases hp : p a
        · simp only [List.filter_cons, hp, if_pos]
          simpa [findUniqueToken, List.find?_cons, hat] using hrec
        · simp only [List.filter_cons]
          simp only [hp, Bool.false_eq_true, if_neg, not_false_iff]
          exact hrec

/-- C3: in a ledger with pairwise-distinct token strings, after
`revokeAllUserTokens uid` the token of any ledger row owned by `uid`
no longer validates, while the validation outcome of a token owned by a
different user is unchanged. -/
theorem revokeAll_invalidates_user_tokens (now : Nat) (l : Ledger)
    (uid t : String) (r : RefreshTokenRow)
    (hpd : l.Pairwise (fun a b => a.token ≠ b.token))
    (hfind : findUniqueToken l t = some r) :
    (r.userId = uid →
      (verifyRefreshToken now (revokeAllUserTokens l uid) t).1 = none) ∧
    (r.userId ≠ uid →
      (verifyRefreshToken now (revokeAllUserTokens l uid) t).1 =
        (verifyRefreshToken now l t).1) := by
  have hfilter := findUniqueToken_filter l t r
    (fun x => decide (x.userId ≠ uid)) hpd hfind
  constructor
  · intro huid
    have hnone : findUniqueToken (revokeAllUserTokens l uid) t = none := by
      rw [revokeAllUserTokens]
      simpa [huid] using hfilter
    simp [verifyRefreshToken, hnone]
  · intro huid
    have hsome : findUniqueToken (revokeAllUserTokens l uid) t = some r := by
      rw [revokeAllUserTokens]
      simpa [huid] using hfilter
    by_cases hexp : r.expiresAt < now
    · simp [verifyRefreshToken, hsome, hfind, hexp]
    · simp [verifyRefreshToken, hsome, hfind, hexp]

/-- Witness for C3: concrete two-user ledger; after revoking all of
user `u1`'s tokens, `u1`'s token is invalid while `u2`'s still
validates to `u2`. -/
theorem revokeAll_invalidates_user_tokens_witness :
    (verifyRefreshToken 10
      (revokeAllUserTokens
        [⟨1, "t1", "u1", 500⟩, ⟨2, "t2", "u2", 500⟩] "u1") "t1").1 =
      none ∧
    (verifyRefreshToken 10
      (revokeAllUserTokens
        [⟨1, "t1", "u1", 500⟩, ⟨2, "t2", "u2", 500⟩] "u1") "t2").1 =
      (verifyRefreshToken 10
        [⟨1, "t1", "u1", 500⟩, ⟨2, "t2", "u2", 500⟩] "t2").1 := by
  constructor
  · exact (revokeAll_invalidates_user_tokens 10
      [⟨1, "t1", "u1", 500⟩, ⟨2, "t2", "u2", 500⟩] "u1" "t1"
      ⟨1, "t1", "u1", 500⟩ (by decide) (by decide)).1 rfl
  · exact (revokeAll_invalidates_user_tokens 10
      [⟨1, "t1", "u1", 500⟩, ⟨2, "t2", "u2", 500⟩] "u1" "t2"
      ⟨2, "t2", "u2", 500⟩ (by decide) (by decide)).2 (by decide)

/-- The `MemberRole` enum (`OWNER | ADMIN | MEMBER`). -/
inductive MemberRole where
  | OWNER
  | ADMIN
  | MEMBER
deriving DecidableEq, Repr

/-- A row of the `WorkspaceMember` table, restricted to the fields the
modelled operations use. -/
structure WorkspaceMemberRow where
  id : String
  userId : String
  workspaceId : String
  role : MemberRole
  isOwner : Bool
  profitSplit : Nat
deriving DecidableEq, Repr

/-- The `Authorization` header of a request: either a well-formed
`Bearer <token>` header (the `startsWith('Bearer ')` branch of
`middleware/auth.ts`, with the token the `slice(7)` remainder) or some
other header value that does not start with `Bearer `. -/
inductive AuthHeader where
  | bearer (t : SignedToken)
  | malformed (s : String)
deriving Repr

/-- The identity `{ id, email, name }` the middleware attaches as
`req.user` (`AuthUser` in `types/index.ts`). -/
structure AuthUser where
  id : String
  email : String
  name : String
deriving DecidableEq, Repr

/-- Outcome of the `authenticate` middleware
(`middleware/auth.ts` lines 9-50). -/
inductive AuthOutcome where
  | authenticationRequired
  | invalidOrExpiredToken
  | userNotFound
  | ok (u : AuthUser)
deriving DecidableEq, Repr

/-- The token-extraction step of `authenticate` (`middleware/auth.ts`
lines 16-19): the token is the `slice(7)` remainder of an
`Authorization` header starting with `Bearer `, else the `accessToken`
cookie. -/
def extractAccessToken (header : Option AuthHeader)
    (cookie : Option SignedToken) : Option SignedToken :=
  match header with
  | some (.bearer t) => some t
  | _ => cookie

/-- `authenticate` (`middleware/auth.ts` lines 9-50): extracts the token
via `extractAccessToken`, then rejects with the three 401 reasons or
attaches the resolved identity. -/
def authenticate (secret : String) (now : Nat) (users : List UserRow)
    (header : Option AuthHeader) (cookie : Option SignedToken) :
    AuthOutcome :=
  match extractAccessToken header cookie with
  | none => .authenticationRequired
  | some t =>
      match verifyAccessToken secret now t with
      | none => .invalidOrExpiredToken
      | some payload =>
          match findUserById users payload.userId with
          | none => .userNotFound
          | some u => .ok ⟨u.id, u.email, u.name⟩

/-- Outcome of the `requireRole` middleware
(`middleware/auth.ts` lines 105-119). -/
inductive RoleOutcome where
  | workspaceAccessRequired
  | insufficientPermissions
  | allowed
deriving DecidableEq, Repr

/-- `requireRole(...roles)` (`middleware/auth.ts` lines 105-119):
403 `Workspace access required` when no membership is attached;
403 `Insufficient permissions` when the membership's role is not in
the allowed list (`roles.includes(...)`); otherwise the request
proceeds. -/
def requireRole (roles : List MemberRole)
    (membership : Option WorkspaceMemberRow) : RoleOutcome :=
  match membership with
  | none => .workspaceAccessRequired
  | some m =>
      if roles.contains m.role then .allowed
      else .insufficientPermissions

/-- C8: `authenticate` yields `Authentication required` when neither a
`Bearer` header nor an `accessToken` cookie supplies a token; `Invalid
or expired token` when a token is present but `verifyAccessToken`
fails; `User not found` when the token verifies but the user id does
not resolve; and otherwise attaches `{ id, email, name }` of the
resolved user. -/
theorem authenticate_cases (secret : String) (now : Nat)
    (users : List UserRow) (header : Option AuthHeader)
    (cookie : Option SignedToken) :
    (extractAccessToken header cookie = none →
      authenticate secret now users header cookie =
        .authenticationRequired) ∧
    (∀ t, extractAccessToken header cookie = some t →
      (verifyAccessToken secret now t = none →
        authenticate secret now users header cookie =
          .invalidOrExpiredToken) ∧
      (∀ payload, verifyAccessToken secret now t = some payload →
        (findUserById users payload.userId = none →
          authenticate secret now users header cookie = .userNotFound) ∧
        (∀ u, findUserById users payload.userId = some u →
          authenticate secret now users header cookie =
            .ok ⟨u.id, u.email, u.name⟩))) := by
  refine ⟨?_, ?_⟩
  · intro h
    simp only [authenticate]
    rw [h]
  · intro t ht
    refine ⟨?_, ?_⟩
    · intro hv
      simp only [authenticate]
      rw [ht]
      simp only [hv]
    · intro payload hv
      refine ⟨?_, ?_⟩
      · intro hu
        simp only [authenticate]
        rw [ht]
        simp only [hv, hu]
      · intro u hu
        simp only [authenticate]
        rw [ht]
        simp only [hv, hu]

/-- Witness for C8: the four outcomes on concrete requests — no
token, an expired token, a verified token for a deleted user, and a
fully valid request. -/
theorem authenticate_cases_witness :
    authenticate "s" 10 [⟨"u1", "a@x.com", "A"⟩]
      (some (.malformed "Basic xyz")) none = .authenticationRequired ∧
    authenticate "s" 10 [⟨"u1", "a@x.com", "A"⟩]
      (some (.bearer ⟨⟨"u1", "a@x.com"⟩, 5, "s"⟩)) none =
      .invalidOrExpiredToken ∧
    authenticate "s" 10 [⟨"u1", "a@x.com", "A"⟩]
      (some (.bearer ⟨⟨"u2", "b@x.com"⟩, 50, "s"⟩)) none = .userNotFound ∧
    authenticate "s" 10 [⟨"u1", "a@x.com", "A"⟩] none
      (some ⟨⟨"u1", "a@x.com"⟩, 50, "s"⟩) = .ok ⟨"u1", "a@x.com", "A"⟩ := by
  refine ⟨?_, ?_, ?_, ?_⟩
  · exact (authenticate_cases "s" 10 [⟨"u1", "a@x.com", "A"⟩]
      (some (.malformed "Basic xyz")) none).1 rfl
  · exact ((authenticate_cases "s" 10 [⟨"u1", "a@x.com", "A"⟩]
      (some (.bearer ⟨⟨"u1", "a@x.com"⟩, 5, "s"⟩)) none).2
      ⟨⟨"u1", "a@x.com"⟩, 5, "s"⟩ rfl).1 (by decide)
  · exact (((authenticate_cases "s" 10 [⟨"u1", "a@x.com", "A"⟩]
      (some (.bearer ⟨⟨"u2", "b@x.com"⟩, 50, "s"⟩)) none).2
      ⟨⟨"u2", "b@x.com"⟩, 50, "s"⟩ rfl).2 ⟨"u2", "b@x.com"⟩
      (by decide)).1 (by decide)
  · exact ((((authenticate_cases "s" 10 [⟨"u1", "a@x.com", "A"⟩] none
      (some ⟨⟨"u1", "a@x.com"⟩, 50, "s"⟩)).2
      ⟨⟨"u1", "a@x.com"⟩, 50, "s"⟩ rfl).2 ⟨"u1", "a@x.com"⟩
      (by decide)).2 ⟨"u1", "a@x.com", "A"⟩ (by decide))

/-- C9: with a membership attached, `requireRole` allows the request
exactly when the membership's role is an element of the allowed list,
and yields `Insufficient permissions` exactly otherwise — flat set
membership, no hierarchy. -/
theorem requireRole_flat_membership (roles : List MemberRole)
    (m : WorkspaceMemberRow) :
    (requireRole roles (some m) = .allowed ↔ m.role ∈ roles) ∧
    (requireRole roles (some m) = .insufficientPermissions ↔
      m.role ∉ roles) := by
  have hc : roles.contains m.role = decide (m.role ∈ roles) := by
    simp [List.contains, List.elem_iff]
  by_cases h : m.role ∈ roles
  · simp [requireRole, hc, h]
  · simp [requireRole, hc, h]

/-- Witness for C9: an `OWNER` membership does not pass a gate whose
allowed set is `[ADMIN]` (no implicit hierarchy), and does pass a gate
listing `OWNER`. -/
theorem requireRole_flat_membership_witness :
    requireRole [.ADMIN] (some ⟨"m1", "u1", "w1", .OWNER, true, 100⟩) =
      .insufficientPermissions ∧
    requireRole [.OWNER, .ADMIN]
      (some ⟨"m1", "u1", "w1", .OWNER, true, 100⟩) = .allowed := by
  constructor
  · exact (requireRole_flat_membership [.ADMIN]
      ⟨"m1", "u1", "w1", .OWNER, true, 100⟩).2.mpr (by decide)
  · exact (requireRole_flat_membership [.OWNER, .ADMIN]
      ⟨"m1", "u1", "w1", .OWNER, true, 100⟩).1.mpr (by decide)

/-- JavaScript `String.prototype.toLowerCase()`, character-wise. -/
def lowerStr (s : String) : String := ⟨s.data.map Char.toLower⟩

/-- The `WorkspaceType` enum (`SOLE_TRADER | PARTNERSHIP`). -/
inductive WorkspaceType where
  | SOLE_TRADER
  | PARTNERSHIP
deriving DecidableEq, Repr

/-- A row of the `Workspace` table (fields the modelled operations
use). -/
structure WorkspaceRow where
  id : String
  name : String
  type : WorkspaceType
deriving DecidableEq, Repr

/-- Outcome of the `updateWorkspace` controller
(`src/unnamed/part_002` lines 110-141). -/
inductive UpdateWorkspaceOutcome where
  | insufficientPermissions
  | updated (w : WorkspaceRow)
deriving DecidableEq, Repr

/-- `updateWorkspace` (`src/unnamed/part_002` lines 110-141): after the
`OWNER`/`ADMIN` role check, patches `name` and `type` with the
truthy fields of the request body (`...(name && { name }),
...(type && { type })`); an absent/falsy field is modelled as `none`
and leaves the column unchanged. -/
def updateWorkspace (callerRole : MemberRole) (w : WorkspaceRow)
    (newName : Option String) (newType : Option WorkspaceType) :
    UpdateWorkspaceOutcome :=
  if callerRole = .OWNER ∨ callerRole = .ADMIN then
    .updated { w with name := newName.getD w.name,
                      type := newType.getD w.type }
  else .insufficientPermissions

/-- The `InvitationStatus` enum
(`PENDING | ACCEPTED | EXPIRED | CANCELLED`, spec §3). -/
inductive InvitationStatus where
  | PENDING
  | ACCEPTED
  | EXPIRED
  | CANCELLED
deriving DecidableEq, Repr

/-- A row of the `Invitation` table (fields the modelled operations
use). -/
structure InvitationRow where
  id : String
  workspaceId : String
  email : String
  profitSplit : Nat
  token : String
  status : InvitationStatus
  expiresAt : Nat
  invitedUserId : Option String
deriving DecidableEq, Repr

/-- Outcome of the `cancelInvitation` controller
(`src/unnamed/part_002` lines 475-511). -/
inductive CancelOutcome where
  | insufficientPermissions
  | notFound
  | cancelled
deriving DecidableEq, Repr

/-- `cancelInvitation` (`src/unnamed/part_002` lines 475-511): requires
`OWNER`/`ADMIN`; `findFirst` for a `PENDING` invitation with the given
id in the current workspace; when found, `prisma.invitation.delete
({ where: { id: invitationId } })` removes the row. -/
def cancelInvitation (callerRole : MemberRole) (wsId : String)
    (invs : List InvitationRow) (invitationId : String) :
    CancelOutcome × List InvitationRow :=
  if callerRole = .OWNER ∨ callerRole = .ADMIN then
    match invs.find? (fun i =>
        i.id = invitationId ∧ i.workspaceId = wsId ∧
        i.status = .PENDING) with
    | none => (.notFound, invs)
    | some _ => (.cancelled, invs.filter (fun i => i.id ≠ invitationId))
  else (.insufficientPermissions, invs)

/-- Outcome of the `removeMember` controller
(`src/unnamed/part_002` lines 396-440). -/
inductive RemoveOutcome where
  | onlyOwnerCanRemove
  | notFound
  | cannotRemoveOwner
  | removed
deriving DecidableEq, Repr

/-- `removeMember` (`src/unnamed/part_002` lines 396-440): only a
caller whose membership role is `OWNER` proceeds (the route also
stacks `requireRole('OWNER')`); `findFirst` on (id, workspaceId); a
found member with `isOwner` yields 400 `Cannot remove workspace owner`;
otherwise the row is deleted. -/
def removeMember (callerRole : MemberRole) (wsId : String)
    (members : List WorkspaceMemberRow) (memberId : String) :
    RemoveOutcome × List WorkspaceMemberRow :=
  if callerRole ≠ .OWNER then (.onlyOwnerCanRemove, members)
  else
    match members.find? (fun m => m.id = memberId ∧ m.workspaceId = wsId) with
    | none => (.notFound, members)
    | some m =>
        if m.isOwner then (.cannotRemoveOwner, members)
        else (.removed, members.filter (fun x => x.id ≠ memberId))

/-- The workspace-scoped database state touched by
`acceptInvitation`. -/
structure WorkspaceState where
  workspaces : List WorkspaceRow
  members : List WorkspaceMemberRow
  invitations : List InvitationRow
deriving DecidableEq, Repr

/-- Outcome of the `acceptInvitation` controller
(`src/unnamed/part_002` lines 262-342). -/
inductive AcceptOutcome where
  | authenticationRequired
  | notFound
  | noLongerValid
  | expired
  | wrongEmail
  | accepted (m : WorkspaceMemberRow)
deriving DecidableEq, Repr

/-- `acceptInvitation` (`src/unnamed/part_002` lines 262-342): requires
an authenticated user; finds the invitation by its unique token
(404 when absent); rejects a non-`PENDING` invitation (400); an
expired one is marked `EXPIRED` and rejected (400); an invitee-email
mismatch (case-insensitive) is rejected (403); otherwise, in one
transaction, the invitation becomes `ACCEPTED` with `invitedUserId`
set, a `MEMBER` row is created (fresh id `freshMemberId`, `isOwner`
keeps its schema default `false`), and a `SOLE_TRADER` workspace
becomes `PARTNERSHIP`. -/
def acceptInvitation (now : Nat) (user : Option AuthUser)
    (st : WorkspaceState) (token : String) (freshMemberId : String) :
    AcceptOutcome × WorkspaceState :=
  match user with
  | none => (.authenticationRequired, st)
  | some u =>
      match st.invitations.find? (fun i => i.token = token) with
      | none => (.notFound, st)
      | some inv =>
          if inv.status ≠ .PENDING then (.noLongerValid, st)
          else if inv.expiresAt < now then
            (.expired,
              { st with invitations := st.invitations.map (fun i =>
                  if i.id = inv.id then { i with status := .EXPIRED }
                  else i) })
          else if lowerStr inv.email ≠ lowerStr u.email then
            (.wrongEmail, st)
          else
            let invitations := st.invitations.map (fun i =>
              if i.id = inv.id then
                { i with status := .ACCEPTED, invitedUserId := some u.id }
              else i)
            let newMember : WorkspaceMemberRow :=
              ⟨freshMemberId, u.id, inv.workspaceId, .MEMBER, false,
                inv.profitSplit⟩
            let workspaces :=
              match st.workspaces.find? (fun w => w.id = inv.workspaceId) with
              | some w =>
                  if w.type = .SOLE_TRADER then
                    st.workspaces.map (fun x =>
                      if x.id = inv.workspaceId then
                        { x with type := .PARTNERSHIP }
                      else x)
                  else st.workspaces
              | none => st.workspaces
            (.accepted newMember,
              { workspaces := workspaces,
                members := newMember :: st.members,
                invitations := invitations })

/-- Counterexample to C5: `updateWorkspace`, reachable by any
`OWNER`/`ADMIN` via `PATCH /:workspaceId`, sets a `PARTNERSHIP`
workspace back to `SOLE_TRADER` when the body carries
`type: SOLE_TRADER`, so the transition is not one-way. -/
theorem partnership_reversal_counterexample :
    updateWorkspace .OWNER ⟨"w1", "W", .PARTNERSHIP⟩ none
      (some .SOLE_TRADER) = .updated ⟨"w1", "W", .SOLE_TRADER⟩ := by
  decide

/-- C5 as amended: the invitation-acceptance flow itself never reverts
the transition — after any `acceptInvitation` call, every workspace
that was `PARTNERSHIP` beforehand still has a row with the same id and
type `PARTNERSHIP` (the reversal is only reachable through
`updateWorkspace`). -/
theorem acceptInvitation_preserves_partnership (now : Nat)
    (user : Option AuthUser) (st : WorkspaceState)
    (token freshMemberId : String) (w : WorkspaceRow)
    (hw : w ∈ st.workspaces) (hp : w.type = .PARTNERSHIP) :
    ∃ w' ∈ (acceptInvitation now user st token freshMemberId).2.workspaces,
      w'.id = w.id ∧ w'.type = .PARTNERSHIP := by
  have hbase : ∀ l : List WorkspaceRow, l = st.workspaces →
      ∃ w' ∈ l, w'.id = w.id ∧ w'.type = .PARTNERSHIP := by
    intro l hl
    exact ⟨w, hl ▸ hw, rfl, hp⟩
  unfold acceptInvitation
  split
  · exact hbase _ rfl
  · split
    · exact hbase _ rfl
    · rename_i u inv _
      split
      · exact hbase _ rfl
      · split
        · exact hbase _ rfl
        · split
          · exact hbase _ rfl
          · dsimp only
            split
            · rename_i w0 _
              split
              · refine ⟨if w.id = inv.workspaceId then
                    { w with type := .PARTNERSHIP } else w,
                  List.mem_map_of_mem _ hw, ?_⟩
                by_cases hid : w.id = inv.workspaceId
                · simp [hid]
                · simp [hid, hp]
              · exact hbase _ rfl
            · exact hbase _ rfl

/-- Witness for the amended C5: a concrete acceptance into one
workspace leaves a sibling `PARTNERSHIP` workspace intact. -/
theorem acceptInvitation_preserves_partnership_witness :
    ∃ w' ∈ (acceptInvitation 10 (some ⟨"u2", "b@x.com", "B"⟩)
      ⟨[⟨"w1", "W1", .SOLE_TRADER⟩, ⟨"w2", "W2", .PARTNERSHIP⟩],
        [⟨"m1", "u1", "w1", .OWNER, true, 100⟩],
        [⟨"i1", "w1", "b@x.com", 50, "tok", .PENDING, 100, none⟩]⟩
      "tok" "m2").2.workspaces,
      w'.id = "w2" ∧ w'.type = .PARTNERSHIP := by
  exact acceptInvitation_preserves_partnership 10
    (some ⟨"u2", "b@x.com", "B"⟩)
    ⟨[⟨"w1", "W1", .SOLE_TRADER⟩, ⟨"w2", "W2", .PARTNERSHIP⟩],
      [⟨"m1", "u1", "w1", .OWNER, true, 100⟩],
      [⟨"i1", "w1", "b@x.com", 50, "tok", .PENDING, 100, none⟩]⟩
    "tok" "m2" ⟨"w2", "W2", .PARTNERSHIP⟩ (by decide) rfl

/-- Counterexample to C6: withdrawing a pending invitation by an owner
deletes the row outright — the resulting invitation table is empty, so
no invitation with status `CANCELLED` exists afterwards. -/
theorem cancelInvitation_no_cancelled_row :
    cancelInvitation .OWNER "w1"
      [⟨"i1", "w1", "b@x.com", 50, "tok", .PENDING, 100, none⟩] "i1" =
      (.cancelled, []) := by
  decide

/-- C6 as amended: explicit withdrawal by an `OWNER`/`ADMIN` deletes
the pending invitation row (rather than transitioning its status to
`CANCELLED`); `cancelInvitation` never modifies a surviving row; and an
invitation in a non-`PENDING` (terminal) status is rejected by
`acceptInvitation` with the state unchanged. -/
theorem cancelInvitation_deletes_and_terminal_immutable
    (callerRole : MemberRole) (wsId : String) (invs : List InvitationRow)
    (invitationId : String) (now : Nat) (u : AuthUser)
    (st : WorkspaceState) (token fid : String) :
    ((callerRole = .OWNER ∨ callerRole = .ADMIN) →
      ∀ inv, invs.find? (fun i =>
          i.id = invitationId ∧ i.workspaceId = wsId ∧
          i.status = .PENDING) = some inv →
        cancelInvitation callerRole wsId invs invitationId =
          (.cancelled, invs.filter (fun i => i.id ≠ invitationId)) ∧
        ∀ i ∈ (cancelInvitation callerRole wsId invs invitationId).2,
          i.id ≠ invitationId) ∧
    (∀ i ∈ (cancelInvitation callerRole wsId invs invitationId).2,
      i ∈ invs) ∧
    (∀ inv, st.invitations.find? (fun i => i.token = token) = some inv →
      inv.status ≠ .PENDING →
      acceptInvitation now (some u) st token fid = (.noLongerValid, st)) := by
  refine ⟨?_, ?_, ?_⟩
  · intro hrole inv hfind
    have heq : cancelInvitation callerRole wsId invs invitationId =
        (.cancelled, invs.filter (fun i => i.id ≠ invitationId)) := by
      unfold cancelInvitation
      rw [if_pos hrole, hfind]
    refine ⟨heq, ?_⟩
    rw [heq]
    intro i hi
    have := (List.mem_filter.mp hi).2
    simpa using this
  · intro i hi
    unfold cancelInvitation at hi
    by_cases hrole : callerRole = MemberRole.OWNER ∨
        callerRole = MemberRole.ADMIN
    · rw [if_pos hrole] at hi
      rcases hfind : invs.find? (fun i =>
          i.id = invitationId ∧ i.workspaceId = wsId ∧
          i.status = InvitationStatus.PENDING) with _ | inv
      · rw [hfind] at hi
        exact hi
      · rw [hfind] at hi
        exact (List.mem_filter.mp hi).1
    · rw [if_neg hrole] at hi
      exact hi
  · intro inv hfind hst
    unfold acceptInvitation
    rw [hfind]
    dsimp only
    rw [if_pos hst]

/-- Witness for the amended C6: a concrete withdrawal deletes only the
targeted row, and accepting an already-`ACCEPTED` invitation is
rejected without touching the state. -/
theorem cancelInvitation_deletes_and_terminal_immutable_witness :
    cancelInvitation .ADMIN "w1"
      [⟨"i1", "w1", "b@x.com", 50, "tok", .PENDING, 100, none⟩,
       ⟨"i2", "w1", "c@x.com", 25, "tok2", .ACCEPTED, 100, some "u3"⟩]
      "i1" =
      (.cancelled,
       [⟨"i2", "w1", "c@x.com", 25, "tok2", .ACCEPTED, 100, some "u3"⟩]) ∧
    acceptInvitation 10 (some ⟨"u3", "c@x.com", "C"⟩)
      ⟨[⟨"w1", "W1", .PARTNERSHIP⟩], [],
        [⟨"i2", "w1", "c@x.com", 25, "tok2", .ACCEPTED, 100, some "u3"⟩]⟩
      "tok2" "m9" =
      (.noLongerValid,
       ⟨[⟨"w1", "W1", .PARTNERSHIP⟩], [],
        [⟨"i2", "w1", "c@x.com", 25, "tok2", .ACCEPTED, 100, some "u3"⟩]⟩) := by
  constructor
  · exact ((cancelInvitation_deletes_and_terminal_immutable .ADMIN "w1"
      [⟨"i1", "w1", "b@x.com", 50, "tok", .PENDING, 100, none⟩,
       ⟨"i2", "w1", "c@x.com", 25, "tok2", .ACCEPTED, 100, some "u3"⟩]
      "i1" 10 ⟨"u3", "c@x.com", "C"⟩
      ⟨[⟨"w1", "W1", .PARTNERSHIP⟩], [],
        [⟨"i2", "w1", "c@x.com", 25, "tok2", .ACCEPTED, 100, some "u3"⟩]⟩
      "tok2" "m9").1 (by decide)
      ⟨"i1", "w1", "b@x.com", 50, "tok", .PENDING, 100, none⟩
      (by decide)).1
  · exact (cancelInvitation_deletes_and_terminal_immutable .ADMIN "w1"
      [⟨"i1", "w1", "b@x.com", 50, "tok", .PENDING, 100, none⟩,
       ⟨"i2", "w1", "c@x.com", 25, "tok2", .ACCEPTED, 100, some "u3"⟩]
      "i1" 10 ⟨"u3", "c@x.com", "C"⟩
      ⟨[⟨"w1", "W1", .PARTNERSHIP⟩], [],
        [⟨"i2", "w1", "c@x.com", 25, "tok2", .ACCEPTED, 100, some "u3"⟩]⟩
      "tok2" "m9").2.2
      ⟨"i2", "w1", "c@x.com", 25, "tok2", .ACCEPTED, 100, some "u3"⟩
      (by decide) (by decide)

/-- C7: with pairwise-distinct member ids (the primary-key constraint),
`removeMember` never deletes a member flagged `isOwner` — every such
member survives the call whatever the caller's role — and when the
targeted member is the owner the call fails (`Cannot remove workspace
owner` after the role gate) with the member table unchanged. -/
theorem removeMember_protects_owner (callerRole : MemberRole)
    (wsId : String) (members : List WorkspaceMemberRow) (memberId : String)
    (hids : members.Pairwise (fun a b => a.id ≠ b.id)) :
    (∀ m ∈ members, m.isOwner = true →
      m ∈ (removeMember callerRole wsId members memberId).2) ∧
    (∀ m, members.find? (fun x =>
        x.id = memberId ∧ x.workspaceId = wsId) = some m →
      m.isOwner = true →
      (removeMember callerRole wsId members memberId).2 = members ∧
      (removeMember callerRole wsId members memberId).1 ≠ .removed) := by
  constructor
  · intro m hm howner
    unfold removeMember
    by_cases hrole : callerRole ≠ MemberRole.OWNER
    · rw [if_pos hrole]
      exact hm
    · rw [if_neg hrole]
      rcases hfind : members.find? (fun x =>
          x.id = memberId ∧ x.workspaceId = wsId) with _ | m0
      · rw [hfind]
        exact hm
      · rw [hfind]
        dsimp only
        have hm0mem : m0 ∈ members := List.mem_of_find?_eq_some hfind
        have hm0p := List.find?_some hfind
        have hm0id : m0.id = memberId := by
          simp only [decide_eq_true_eq] at hm0p
          exact hm0p.1
        by_cases hown0 : m0.isOwner
        · rw [if_pos hown0]
          exact hm
        · rw [if_neg hown0]
          have hne : m ≠ m0 := by
            intro h
            rw [h] at howner
            exact hown0 howner
          have hneid : m.id ≠ m0.id :=
            List.Pairwise.forall (fun x y hxy => hxy.symm) hids hm hm0mem hne
          refine List.mem_filter.mpr ⟨hm, ?_⟩
          simp only [decide_eq_true_eq]
          rw [← hm0id] at *
          exact hneid
  · intro m hfind howner
    unfold removeMember
    by_cases hrole : callerRole ≠ MemberRole.OWNER
    · rw [if_pos hrole]
      exact ⟨rfl, by intro h; exact RemoveOutcome.noConfusion h⟩
    · rw [if_neg hrole, hfind]
      dsimp only
      rw [if_pos howner]
      exact ⟨rfl, by intro h; exact RemoveOutcome.noConfusion h⟩

/-- Witness for C7: a two-member workspace; removing the owner as an
owner-caller fails with the table unchanged, and the owner row also
survives a removal request aimed at it from a `MEMBER` caller. -/
theorem removeMember_protects_owner_witness :
    (⟨"m1", "u1", "w1", .OWNER, true, 60⟩ : WorkspaceMemberRow) ∈
      (removeMember .MEMBER "w1"
        [⟨"m1", "u1", "w1", .OWNER, true, 60⟩,
         ⟨"m2", "u2", "w1", .MEMBER, false, 40⟩] "m1").2 ∧
    (removeMember .OWNER "w1"
      [⟨"m1", "u1", "w1", .OWNER, true, 60⟩,
       ⟨"m2", "u2", "w1", .MEMBER, false, 40⟩] "m1").2 =
      [⟨"m1", "u1", "w1", .OWNER, true, 60⟩,
       ⟨"m2", "u2", "w1", .MEMBER, false, 40⟩] ∧
    (removeMember .OWNER "w1"
      [⟨"m1", "u1", "w1", .OWNER, true, 60⟩,
       ⟨"m2", "u2", "w1", .MEMBER, false, 40⟩] "m1").1 ≠ .removed := by
  refine ⟨?_, ?_⟩
  · exact (removeMember_protects_owner .MEMBER "w1"
      [⟨"m1", "u1", "w1", .OWNER, true, 60⟩,
       ⟨"m2", "u2", "w1", .MEMBER, false, 40⟩] "m1" (by decide)).1
      ⟨"m1", "u1", "w1", .OWNER, true, 60⟩ (by decide) rfl
  · exact (removeMember_protects_owner .OWNER "w1"
      [⟨"m1", "u1", "w1", .OWNER, true, 60⟩,
       ⟨"m2", "u2", "w1", .MEMBER, false, 40⟩] "m1" (by decide)).2
      ⟨"m1", "u1", "w1", .OWNER, true, 60⟩ (by decide) rfl

/-- C10: accepting a pending, unexpired invitation whose invitee email
differs case-insensitively from the authenticated user's email is
rejected with 403 and the state is returned unchanged — the invitation
stays `PENDING` and no `WorkspaceMember` row is created. -/
theorem acceptInvitation_wrong_email (now : Nat) (u : AuthUser)
    (st : WorkspaceState) (token fid : String) (inv : InvitationRow)
    (hfind : st.invitations.find? (fun i => i.token = token) = some inv)
    (hpending : inv.status = .PENDING)
    (hnotexp : ¬ inv.expiresAt < now)
    (hmail : lowerStr inv.email ≠ lowerStr u.email) :
    acceptInvitation now (some u) st token fid = (.wrongEmail, st) := by
  unfold acceptInvitation
  rw [hfind]
  dsimp only
  rw [if_neg (by simp [hpending]), if_neg hnotexp, if_pos hmail]

/-- Witness for C10: a user with a different email address cannot
accept a concrete pending invitation; the state survives intact. -/
theorem acceptInvitation_wrong_email_witness :
    acceptInvitation 10 (some ⟨"u9", "Z@x.com", "Z"⟩)
      ⟨[⟨"w1", "W1", .SOLE_TRADER⟩],
        [⟨"m1", "u1", "w1", .OWNER, true, 100⟩],
        [⟨"i1", "w1", "B@x.com", 50, "tok", .PENDING, 100, none⟩]⟩
      "tok" "m2" =
      (.wrongEmail,
        ⟨[⟨"w1", "W1", .SOLE_TRADER⟩],
          [⟨"m1", "u1", "w1", .OWNER, true, 100⟩],
          [⟨"i1", "w1", "B@x.com", 50, "tok", .PENDING, 100, none⟩]⟩) := by
  exact acceptInvitation_wrong_email 10 ⟨"u9", "Z@x.com", "Z"⟩
    ⟨[⟨"w1", "W1", .SOLE_TRADER⟩],
      [⟨"m1", "u1", "w1", .OWNER, true, 100⟩],
      [⟨"i1", "w1", "B@x.com", 50, "tok", .PENDING, 100, none⟩]⟩
    "tok" "m2" ⟨"i1", "w1", "B@x.com", 50, "tok", .PENDING, 100, none⟩
    (by decide) rfl (by decide) (by decide)
